import Mathlib

/-!
Verification of the performance-comparison and regression-detection core of
the repository (sampling → aggregation → comparison → regression detection).

The Python sources are shallowly embedded: fractional millisecond values and
ratios are modelled as exact rationals (`ℚ`); Python's `sorted` is modelled by
`List.insertionSort (· ≤ ·)` (a stable comparison sort, like Python's);
Python float division, which raises `ZeroDivisionError` on a zero divisor, is
modelled by an `Option`-valued division where partiality matters.  List
indexing is modelled with `List.getD _ 0`; every claim below only exercises
in-range indices, where `getD` agrees with Python indexing.
-/

namespace Goxel

/-- Python `int(x)` applied to a float: truncation toward zero. -/
def pytrunc (q : ℚ) : ℤ := if q < 0 then ⌈q⌉ else ⌊q⌋

/-- The interpolation core shared by `CLIPerformanceTester._percentile` and
`DaemonPerformanceTester._percentile` (benchmark_v14.py), applied to the
already sorted list: `index.is_integer()` becomes `index.den = 1`,
`int(index)` becomes `pytrunc`, and
`lower + (upper - lower) * (index - int(index))` is kept verbatim. -/
def interpAt (s : List ℚ) (index : ℚ) : ℚ :=
  if index.den = 1 then s.getD (pytrunc index).toNat 0
  else
    let lower := s.getD (pytrunc index).toNat 0
    let upper := s.getD ((pytrunc index).toNat + 1) 0
    lower + (upper - lower) * (index - pytrunc index)

/-- `_percentile(data, percentile)` from benchmark_v14.py (identical in the
CLI and daemon testers): `if not data: return 0`, otherwise sort and
interpolate at `(percentile / 100) * (len(sorted_data) - 1)`. -/
def percentile (data : List ℚ) (p : ℚ) : ℚ :=
  if data = [] then 0
  else
    let sorted_data := data.insertionSort (· ≤ ·)
    interpAt sorted_data (p / 100 * ((sorted_data.length : ℚ) - 1))

/-- Percentile as the specification words it: index = `p/100 * (n-1)` on the
sorted list; if the index is an integer return that element, otherwise
interpolate between `floor(index)` and `ceil(index)` proportionally to the
fractional part.  Written from the spec, to be compared with `percentile`. -/
def percentileSpec (data : List ℚ) (p : ℚ) : ℚ :=
  let s := data.insertionSort (· ≤ ·)
  let index := p / 100 * ((s.length : ℚ) - 1)
  if (⌊index⌋ : ℚ) = index then s.getD ⌊index⌋.toNat 0
  else
    s.getD ⌊index⌋.toNat 0 +
      (s.getD ⌈index⌉.toNat 0 - s.getD ⌊index⌋.toNat 0) * (index - ⌊index⌋)

/-- Python `min(l)` for the nonempty lists the code applies it to. -/
def pymin : List ℚ → ℚ
  | [] => 0
  | x :: xs => xs.foldl min x

/-- Python `max(l)` for the nonempty lists the code applies it to. -/
def pymax : List ℚ → ℚ
  | [] => 0
  | x :: xs => xs.foldl max x

/-- Python `statistics.mean(l)`. -/
def pymean (l : List ℚ) : ℚ := l.sum / l.length

/-- Python `statistics.median(l)`: sort; middle element for odd length,
average of the two middle elements for even length. -/
def pymedian (l : List ℚ) : ℚ :=
  let s := l.insertionSort (· ≤ ·)
  let n := s.length
  if n % 2 = 1 then s.getD (n / 2) 0
  else (s.getD (n / 2 - 1) 0 + s.getD (n / 2) 0) / 2

/-- The `PerformanceMetrics` dataclass of benchmark_v14.py (numeric fields as
exact rationals). -/
structure PerformanceMetrics where
  test_name : String
  operation_count : ℕ
  total_time_ms : ℚ
  avg_latency_ms : ℚ
  min_latency_ms : ℚ
  max_latency_ms : ℚ
  p50_latency_ms : ℚ
  p95_latency_ms : ℚ
  p99_latency_ms : ℚ
  throughput_ops_sec : ℚ
  memory_usage_mb : ℚ
  success_rate_percent : ℚ
  concurrent_clients : ℕ := 1
  errors : List String := []
  deriving Repr, DecidableEq

/-- The metric computation of `CLIPerformanceTester.benchmark_basic_operations`
(benchmark_v14.py): given the collected successful sequence latencies, the
number of operations per sequence (`len(operations)`), the requested sample
count, the observed memory usage and the error list, build the summary.
`if latencies:` selects the main branch; the `else` branch zeroes every
statistic. -/
def buildMetricsCLI (latencies : List ℚ) (numOperations num_samples : ℕ)
    (memory_usage : ℚ) (errs : List String) : PerformanceMetrics :=
  if latencies = [] then
    { test_name := "CLI_Basic_Operations"
      operation_count := latencies.length * numOperations
      total_time_ms := 0
      avg_latency_ms := 0
      min_latency_ms := 0
      max_latency_ms := 0
      p50_latency_ms := 0
      p95_latency_ms := 0
      p99_latency_ms := 0
      throughput_ops_sec := 0
      memory_usage_mb := memory_usage
      success_rate_percent := 0
      errors := errs }
  else
    let total_time := latencies.sum
    { test_name := "CLI_Basic_Operations"
      operation_count := latencies.length * numOperations
      total_time_ms := total_time
      avg_latency_ms := pymean latencies
      min_latency_ms := pymin latencies
      max_latency_ms := pymax latencies
      p50_latency_ms := pymedian latencies
      p95_latency_ms := percentile latencies 95
      p99_latency_ms := percentile latencies 99
      throughput_ops_sec := ((latencies.length * numOperations : ℕ) : ℚ) / (total_time / 1000)
      memory_usage_mb := memory_usage
      success_rate_percent := (latencies.length : ℚ) / num_samples * 100
      errors := errs }

/-- The metric computation of
`DaemonPerformanceTester.benchmark_basic_operations` (benchmark_v14.py):
latencies here are per-operation, `operation_count = len(latencies)`,
`throughput = len(latencies) / (total_time / 1000)` and the success rate is
measured against `num_samples * len(operations)` attempts. -/
def buildMetricsDaemon (latencies : List ℚ) (numOperations num_samples : ℕ)
    (daemon_memory : ℚ) (errs : List String) : PerformanceMetrics :=
  if latencies = [] then
    { test_name := "Daemon_Basic_Operations"
      operation_count := latencies.length
      total_time_ms := 0
      avg_latency_ms := 0
      min_latency_ms := 0
      max_latency_ms := 0
      p50_latency_ms := 0
      p95_latency_ms := 0
      p99_latency_ms := 0
      throughput_ops_sec := 0
      memory_usage_mb := daemon_memory
      success_rate_percent := 0
      errors := errs }
  else
    let total_time := latencies.sum
    { test_name := "Daemon_Basic_Operations"
      operation_count := latencies.length
      total_time_ms := total_time
      avg_latency_ms := pymean latencies
      min_latency_ms := pymin latencies
      max_latency_ms := pymax latencies
      p50_latency_ms := pymedian latencies
      p95_latency_ms := percentile latencies 95
      p99_latency_ms := percentile latencies 99
      throughput_ops_sec := (latencies.length : ℚ) / (total_time / 1000)
      memory_usage_mb := daemon_memory
      success_rate_percent := (latencies.length : ℚ) / ((num_samples * numOperations : ℕ) : ℚ) * 100
      errors := errs }

/-- The per-worker outcome of `client_worker` in
`DaemonPerformanceTester.benchmark_concurrent_clients`: the worker's list of
successful-operation latencies and its list of error strings (one entry per
failed operation). -/
structure WorkerResult where
  latencies : List ℚ
  errors : List String
  deriving Repr, DecidableEq

/-- The merge step of `DaemonPerformanceTester.benchmark_concurrent_clients`
(benchmark_v14.py): `all_latencies` / `all_errors` are accumulated with
`extend` over the per-worker results after the join, and all statistics are
computed over the pooled `all_latencies`.  `total_test_time` is the measured
wall-clock time of the whole concurrent phase (an input to the merge). -/
def mergeConcurrent (results : List WorkerResult)
    (num_clients operations_per_client : ℕ)
    (total_test_time daemon_memory : ℚ) : PerformanceMetrics :=
  let all_latencies := results.foldl (fun acc w => acc ++ w.latencies) []
  let all_errors := results.foldl (fun acc w => acc ++ w.errors) []
  if all_latencies = [] then
    { test_name := "Daemon_Concurrent_Clients"
      operation_count := all_latencies.length
      total_time_ms := total_test_time
      avg_latency_ms := 0
      min_latency_ms := 0
      max_latency_ms := 0
      p50_latency_ms := 0
      p95_latency_ms := 0
      p99_latency_ms := 0
      throughput_ops_sec := 0
      memory_usage_mb := daemon_memory
      success_rate_percent := 0
      concurrent_clients := num_clients
      errors := all_errors }
  else
    { test_name := "Daemon_Concurrent_Clients"
      operation_count := all_latencies.length
      total_time_ms := total_test_time
      avg_latency_ms := pymean all_latencies
      min_latency_ms := pymin all_latencies
      max_latency_ms := pymax all_latencies
      p50_latency_ms := pymedian all_latencies
      p95_latency_ms := percentile all_latencies 95
      p99_latency_ms := percentile all_latencies 99
      throughput_ops_sec := (all_latencies.length : ℚ) / (total_test_time / 1000)
      memory_usage_mb := daemon_memory
      success_rate_percent :=
        (all_latencies.length : ℚ) / ((num_clients * operations_per_client : ℕ) : ℚ) * 100
      concurrent_clients := num_clients
      errors := all_errors }

/-- The shape of a parsed socket-mode response, as far as
`DaemonPerformanceTester.send_json_rpc` inspects it: whether a `"result"` key
is present and, when an `"error"` object is present, its `"code"`.  `none` at
the outer level models a payload that is not valid JSON (in the source,
`json.loads` raises, the surrounding `except` fires, and the sample is
returned with `success = False`). -/
structure RpcResponse where
  hasResult : Bool
  errorCode : Option ℤ
  deriving Repr, DecidableEq

/-- The success classification of `send_json_rpc` (benchmark_v14.py):
`success = "result" in response or ("error" in response and
response["error"]["code"] != -32700)`; a payload that is not valid JSON is a
failure via the `except` branch. -/
def sampleSucceeded : Option RpcResponse → Bool
  | none => false
  | some r =>
    r.hasResult ||
      (match r.errorCode with
        | some c => decide (c ≠ -32700)
        | none => false)

/-- One emitted regression entry of
`PerformanceReporter.detect_regressions` (performance_reporter.py). -/
structure RegressionRecord where
  test : String
  metric : String
  baseline : ℚ
  current : ℚ
  regression_percent : ℚ
  unit : String
  deriving Repr, DecidableEq

/-- The polarity table of `detect_regressions`:
`metric_name in ['avg_latency', 'peak_memory']` means lower is better. -/
def lowerIsBetterMetric (metric : String) : Bool :=
  metric == "avg_latency" || metric == "peak_memory"

/-- The loop body of `PerformanceReporter.detect_regressions`
(performance_reporter.py) for one metric that has a baseline value:
`threshold = 0.1`; for lower-is-better metrics a record is appended when
`(current_value - baseline_value) / baseline_value > threshold`, for
higher-is-better metrics when
`(baseline_value - current_value) / baseline_value > threshold`. -/
def checkMetricRegression (test metric : String)
    (baseline_value current_value : ℚ) (unit : String) : Option RegressionRecord :=
  let threshold : ℚ := 1 / 10
  if lowerIsBetterMetric metric then
    if (current_value - baseline_value) / baseline_value > threshold then
      some ⟨test, metric, baseline_value, current_value,
        (current_value - baseline_value) / baseline_value * 100, unit⟩
    else none
  else
    if (baseline_value - current_value) / baseline_value > threshold then
      some ⟨test, metric, baseline_value, current_value,
        (baseline_value - current_value) / baseline_value * 100, unit⟩
    else none

/-- Configuration constants of benchmark_v14.py. -/
def LATENCY_TARGET_MS : ℚ := 21 / 10

/-- `THROUGHPUT_TARGET_OPS_SEC = 1000`. -/
def THROUGHPUT_TARGET_OPS_SEC : ℚ := 1000

/-- `MEMORY_TARGET_MB = 50`. -/
def MEMORY_TARGET_MB : ℚ := 50

/-- `IMPROVEMENT_TARGET_PERCENT = 700`. -/
def IMPROVEMENT_TARGET_PERCENT : ℚ := 700

/-- The `targets_met` dictionary built by
`PerformanceComparison._calculate_comparison`. -/
structure TargetsMet where
  latency_target : Bool
  throughput_target : Bool
  memory_target : Bool
  improvement_target : Bool
  deriving Repr, DecidableEq

/-- The `ComparisonResults` dataclass of benchmark_v14.py. -/
structure ComparisonResults where
  cli_metrics : PerformanceMetrics
  daemon_metrics : PerformanceMetrics
  improvement_factor : ℚ
  latency_improvement_percent : ℚ
  throughput_improvement_percent : ℚ
  memory_improvement_percent : ℚ
  targets_met : TargetsMet
  deriving Repr, DecidableEq

/-- Python float division: raises `ZeroDivisionError` on a zero divisor,
modelled as `none`. -/
def pydiv (a b : ℚ) : Option ℚ := if b = 0 then none else some (a / b)

/-- `PerformanceComparison._calculate_comparison` (benchmark_v14.py).  The
only division whose divisor is not guarded by the code is
`cli_metrics.avg_latency_ms / daemon_metrics.avg_latency_ms` (reached when
`cli_metrics.avg_latency_ms > 0`), so it is modelled with `pydiv`; every
other division sits under a strict positivity test of its own divisor and is
modelled with total rational division, with which it agrees there. -/
def calcComparison (cli daemon : PerformanceMetrics) : Option ComparisonResults := do
  let fl ←
    if 0 < cli.avg_latency_ms then do
      let f ← pydiv cli.avg_latency_ms daemon.avg_latency_ms
      pure (f, (cli.avg_latency_ms - daemon.avg_latency_ms) / cli.avg_latency_ms * 100)
    else
      pure ((0 : ℚ), (0 : ℚ))
  let improvement_factor := fl.1
  let latency_improvement := fl.2
  let throughput_improvement :=
    if 0 < cli.throughput_ops_sec then
      (daemon.throughput_ops_sec - cli.throughput_ops_sec) / cli.throughput_ops_sec * 100
    else 0
  let memory_improvement :=
    if 0 < cli.memory_usage_mb then
      (cli.memory_usage_mb - daemon.memory_usage_mb) / cli.memory_usage_mb * 100
    else 0
  pure
    { cli_metrics := cli
      daemon_metrics := daemon
      improvement_factor := improvement_factor
      latency_improvement_percent := latency_improvement
      throughput_improvement_percent := throughput_improvement
      memory_improvement_percent := memory_improvement
      targets_met :=
        { latency_target := decide (daemon.avg_latency_ms < LATENCY_TARGET_MS)
          throughput_target := decide (daemon.throughput_ops_sec > THROUGHPUT_TARGET_OPS_SEC)
          memory_target := decide (daemon.memory_usage_mb < MEMORY_TARGET_MB)
          improvement_target := decide (improvement_factor > IMPROVEMENT_TARGET_PERCENT / 100) } }

/-- Test fixture: a summary whose only nonzero statistic is its average
latency, used to exercise `calcComparison` at concrete inputs. -/
def latencySummary (a : ℚ) : PerformanceMetrics where
  test_name := "fixture"
  operation_count := 1
  total_time_ms := a
  avg_latency_ms := a
  min_latency_ms := a
  max_latency_ms := a
  p50_latency_ms := a
  p95_latency_ms := a
  p99_latency_ms := a
  throughput_ops_sec := 0
  memory_usage_mb := 0
  success_rate_percent := 100

/-- Test fixture: a worker whose four operations all took 1 ms. -/
def flatWorker : WorkerResult := ⟨[1, 1, 1, 1], []⟩

/-- Test fixture: a worker with an asymmetric latency distribution. -/
def skewWorker : WorkerResult := ⟨[1, 2, 3, 100], []⟩

/-- Test fixture: a worker with two successful and zero failed operations. -/
def okWorker : WorkerResult := ⟨[1, 2], []⟩

/-- Test fixture: a worker with one successful and one failed operation. -/
def failWorker : WorkerResult := ⟨[3], ["Client 1: Unknown error"]⟩

/-! ### Basic facts about the embedding of Python primitives -/

theorem pytrunc_of_nonneg {q : ℚ} (h : 0 ≤ q) : pytrunc q = ⌊q⌋ := by
  simp [pytrunc, not_lt.mpr h]

theorem den_one_iff (q : ℚ) : q.den = 1 ↔ ((⌊q⌋ : ℚ) = q) := by
  constructor
  · intro h
    have h2 : (q.num : ℚ) = q := (Rat.den_eq_one_iff q).mp h
    rw [← h2, Int.floor_intCast]
  · intro h
    rw [← h]
    exact Rat.den_intCast ⌊q⌋

theorem ceil_of_den_ne_one {i : ℚ} (h : i.den ≠ 1) : ⌈i⌉ = ⌊i⌋ + 1 := by
  have hne : (⌊i⌋ : ℚ) ≠ i := fun he => h ((den_one_iff i).mpr he)
  have hlt : (⌊i⌋ : ℚ) < i := lt_of_le_of_ne (Int.floor_le i) hne
  have h1 : ⌊i⌋ < ⌈i⌉ := by exact_mod_cast hlt.trans_le (Int.le_ceil i)
  have h2 : ⌈i⌉ ≤ ⌊i⌋ + 1 := Int.ceil_le_floor_add_one i
  omega

theorem getD_mem {s : List ℚ} {k : ℕ} (hk : k < s.length) : s.getD k 0 ∈ s := by
  rw [List.getD_eq_getElem?_getD, List.getElem?_eq_getElem hk, Option.getD_some]
  exact List.getElem_mem hk

theorem sorted_getD_mono {s : List ℚ} (hs : s.Sorted (· ≤ ·)) {a b : ℕ}
    (hab : a ≤ b) (hb : b < s.length) : s.getD a 0 ≤ s.getD b 0 := by
  have ha : a < s.length := lt_of_le_of_lt hab hb
  rw [List.getD_eq_getElem?_getD, List.getElem?_eq_getElem ha,
    List.getD_eq_getElem?_getD, List.getElem?_eq_getElem hb, Option.getD_some,
    Option.getD_some]
  exact hs.rel_get_of_le (a := ⟨a, ha⟩) (b := ⟨b, hb⟩) hab

theorem foldl_min_le_init : ∀ (xs : List ℚ) (a : ℚ), xs.foldl min a ≤ a := by
  intro xs
  induction xs with
  | nil => intro a; simp
  | cons x xs ih =>
    intro a
    calc (x :: xs).foldl min a = xs.foldl min (min a x) := by simp
      _ ≤ min a x := ih (min a x)
      _ ≤ a := min_le_left a x

theorem foldl_min_le_mem {y : ℚ} : ∀ (xs : List ℚ) (a : ℚ), y ∈ xs → xs.foldl min a ≤ y := by
  intro xs
  induction xs with
  | nil => intro a hy; cases hy
  | cons x xs ih =>
    intro a hy
    rcases List.mem_cons.mp hy with rfl | hy'
    · calc (y :: xs).foldl min a = xs.foldl min (min a y) := by simp
        _ ≤ min a y := foldl_min_le_init xs (min a y)
        _ ≤ y := min_le_right a y
    · simpa using ih (min a x) hy'

theorem pymin_le {l : List ℚ} {y : ℚ} (hy : y ∈ l) : pymin l ≤ y := by
  match l, hy with
  | x :: xs, hy =>
    rcases List.mem_cons.mp hy with rfl | hy'
    · exact foldl_min_le_init xs y
    · exact foldl_min_le_mem xs x hy'

theorem init_le_foldl_max : ∀ (xs : List ℚ) (a : ℚ), a ≤ xs.foldl max a := by
  intro xs
  induction xs with
  | nil => intro a; simp
  | cons x xs ih =>
    intro a
    calc a ≤ max a x := le_max_left a x
      _ ≤ xs.foldl max (max a x) := ih (max a x)
      _ = (x :: xs).foldl max a := by simp

theorem mem_le_foldl_max {y : ℚ} : ∀ (xs : List ℚ) (a : ℚ), y ∈ xs → y ≤ xs.foldl max a := by
  intro xs
  induction xs with
  | nil => intro a hy; cases hy
  | cons x xs ih =>
    intro a hy
    rcases List.mem_cons.mp hy with rfl | hy'
    · calc y ≤ max a y := le_max_right a y
        _ ≤ xs.foldl max (max a y) := init_le_foldl_max xs (max a y)
        _ = (y :: xs).foldl max a := by simp
    · simpa using ih (max a x) hy'

theorem le_pymax {l : List ℚ} {y : ℚ} (hy : y ∈ l) : y ≤ pymax l := by
  match l, hy with
  | x :: xs, hy =>
    rcases List.mem_cons.mp hy with rfl | hy'
    · exact init_le_foldl_max xs y
    · exact mem_le_foldl_max xs x hy'

/-! ### Unfolding and bounds for `interpAt` on a sorted list -/

theorem interpAt_of_int {s : List ℚ} {i : ℚ} (h0 : 0 ≤ i) (h : i.den = 1) :
    interpAt s i = s.getD ⌊i⌋.toNat 0 := by
  simp [interpAt, h, pytrunc_of_nonneg h0]

theorem interpAt_of_not_int {s : List ℚ} {i : ℚ} (h0 : 0 ≤ i) (h : ¬i.den = 1) :
    interpAt s i =
      s.getD ⌊i⌋.toNat 0 +
        (s.getD (⌊i⌋.toNat + 1) 0 - s.getD ⌊i⌋.toNat 0) * (i - ⌊i⌋) := by
  simp [interpAt, h, pytrunc_of_nonneg h0]

theorem floor_le_length_sub_one {s : List ℚ} {i : ℚ}
    (h1 : i ≤ (s.length : ℚ) - 1) : ⌊i⌋ ≤ (s.length : ℤ) - 1 := by
  have h2 : (⌊i⌋ : ℚ) ≤ (s.length : ℚ) - 1 := (Int.floor_le i).trans h1
  exact_mod_cast h2

theorem floor_toNat_lt_length {s : List ℚ} (hn : s ≠ []) {i : ℚ}
    (h1 : i ≤ (s.length : ℚ) - 1) : ⌊i⌋.toNat < s.length := by
  have hfl := floor_le_length_sub_one h1
  have hn1 : 1 ≤ s.length := List.length_pos.mpr hn
  omega

theorem floor_lt_length_sub_one {s : List ℚ} {i : ℚ}
    (h1 : i ≤ (s.length : ℚ) - 1) (h : ¬i.den = 1) :
    ⌊i⌋ + 1 ≤ (s.length : ℤ) - 1 := by
  have hne : (⌊i⌋ : ℚ) ≠ i := fun he => h ((den_one_iff i).mpr he)
  have hlt : (⌊i⌋ : ℚ) < i := lt_of_le_of_ne (Int.floor_le i) hne
  have h2 : (⌊i⌋ : ℚ) < (s.length : ℚ) - 1 := hlt.trans_le h1
  have h3 : ⌊i⌋ < (s.length : ℤ) - 1 := by exact_mod_cast h2
  omega

theorem getD_floor_le_interpAt {s : List ℚ} (hs : s.Sorted (· ≤ ·)) {i : ℚ}
    (hn : s ≠ []) (h0 : 0 ≤ i) (h1 : i ≤ (s.length : ℚ) - 1) :
    s.getD ⌊i⌋.toNat 0 ≤ interpAt s i := by
  by_cases h : i.den = 1
  · rw [interpAt_of_int h0 h]
  · rw [interpAt_of_not_int h0 h]
    have hup : ⌊i⌋ + 1 ≤ (s.length : ℤ) - 1 := floor_lt_length_sub_one h1 h
    have hf0 : 0 ≤ ⌊i⌋ := Int.floor_nonneg.mpr h0
    have hlt : ⌊i⌋.toNat + 1 < s.length := by omega
    have hlu : s.getD ⌊i⌋.toNat 0 ≤ s.getD (⌊i⌋.toNat + 1) 0 :=
      sorted_getD_mono hs (Nat.le_succ _) hlt
    have hfr : 0 ≤ i - ⌊i⌋ := sub_nonneg.mpr (Int.floor_le i)
    nlinarith [mul_nonneg (sub_nonneg.mpr hlu) hfr]

theorem interpAt_le_getD_ceil {s : List ℚ} (hs : s.Sorted (· ≤ ·)) {i : ℚ}
    (hn : s ≠ []) (h0 : 0 ≤ i) (h1 : i ≤ (s.length : ℚ) - 1) :
    interpAt s i ≤ s.getD ⌈i⌉.toNat 0 := by
  by_cases h : i.den = 1
  · rw [interpAt_of_int h0 h]
    have hfe : (⌊i⌋ : ℚ) = i := (den_one_iff i).mp h
    have : ⌈i⌉ = ⌊i⌋ := by rw [← hfe, Int.ceil_intCast, Int.floor_intCast]
    rw [this]
  · rw [interpAt_of_not_int h0 h]
    have hceil : ⌈i⌉ = ⌊i⌋ + 1 := ceil_of_den_ne_one h
    have hf0 : 0 ≤ ⌊i⌋ := Int.floor_nonneg.mpr h0
    have htn : ⌈i⌉.toNat = ⌊i⌋.toNat + 1 := by omega
    rw [htn]
    have hup : ⌊i⌋ + 1 ≤ (s.length : ℤ) - 1 := floor_lt_length_sub_one h1 h
    have hlt : ⌊i⌋.toNat + 1 < s.length := by omega
    have hlu : s.getD ⌊i⌋.toNat 0 ≤ s.getD (⌊i⌋.toNat + 1) 0 :=
      sorted_getD_mono hs (Nat.le_succ _) hlt
    have hfr : i - ⌊i⌋ ≤ 1 := by
      have := (Int.lt_floor_add_one i).le
      push_cast at this ⊢
      linarith
    nlinarith [mul_nonneg (sub_nonneg.mpr hlu) (sub_nonneg.mpr hfr)]

theorem interpAt_mono {s : List ℚ} (hs : s.Sorted (· ≤ ·)) {i j : ℚ}
    (hn : s ≠ []) (h0 : 0 ≤ i) (hij : i ≤ j) (h1 : j ≤ (s.length : ℚ) - 1) :
    interpAt s i ≤ interpAt s j := by
  rcases eq_or_lt_of_le hij with rfl | hlt
  · exact le_refl _
  have h0j : 0 ≤ j := h0.trans hij
  have hi1 : i ≤ (s.length : ℚ) - 1 := hij.trans h1
  by_cases hcf : ⌈i⌉ ≤ ⌊j⌋
  · have hc0 : 0 ≤ ⌈i⌉ := le_trans (Int.floor_nonneg.mpr h0) (Int.floor_le_ceil i)
    have htn : ⌈i⌉.toNat ≤ ⌊j⌋.toNat := by omega
    have hjlt : ⌊j⌋.toNat < s.length := floor_toNat_lt_length hn h1
    calc interpAt s i ≤ s.getD ⌈i⌉.toNat 0 := interpAt_le_getD_ceil hs hn h0 hi1
      _ ≤ s.getD ⌊j⌋.toNat 0 := sorted_getD_mono hs htn hjlt
      _ ≤ interpAt s j := getD_floor_le_interpAt hs hn h0j h1
  · push_neg at hcf
    have hff : ⌊i⌋ ≤ ⌊j⌋ := Int.floor_le_floor hij
    have hcle : ⌈i⌉ ≤ ⌊i⌋ + 1 := Int.ceil_le_floor_add_one i
    have hfeq : ⌊j⌋ = ⌊i⌋ := by omega
    have hi_den : ¬i.den = 1 := by
      intro h
      have hfe : (⌊i⌋ : ℚ) = i := (den_one_iff i).mp h
      have : ⌈i⌉ = ⌊i⌋ := by rw [← hfe, Int.ceil_intCast, Int.floor_intCast]
      omega
    have hj_den : ¬j.den = 1 := by
      intro h
      have hfe : (⌊j⌋ : ℚ) = j := (den_one_iff j).mp h
      have hji : j ≤ i := by
        rw [← hfe, hfeq]
        exact Int.floor_le i
      linarith
    rw [interpAt_of_not_int h0 hi_den, interpAt_of_not_int h0j hj_den, hfeq]
    have hup : ⌊i⌋ + 1 ≤ (s.length : ℤ) - 1 := floor_lt_length_sub_one hi1 hi_den
    have hf0 : 0 ≤ ⌊i⌋ := Int.floor_nonneg.mpr h0
    have hlt2 : ⌊i⌋.toNat + 1 < s.length := by omega
    have hlu : s.getD ⌊i⌋.toNat 0 ≤ s.getD (⌊i⌋.toNat + 1) 0 :=
      sorted_getD_mono hs (Nat.le_succ _) hlt2
    have hsub : i - ⌊i⌋ ≤ j - ⌊i⌋ := by linarith
    nlinarith [mul_le_mul_of_nonneg_left hsub (sub_nonneg.mpr hlu)]

/-! ### `percentile` and `pymedian` as interpolation on the sorted list -/

theorem percentile_eq_interpAt {l : List ℚ} (hl : l ≠ []) (p : ℚ) :
    percentile l p =
      interpAt (l.insertionSort (· ≤ ·))
        (p / 100 * (((l.insertionSort (· ≤ ·)).length : ℚ) - 1)) := by
  simp [percentile, hl]

theorem pymedian_eq_interpAt {l : List ℚ} (hl : l ≠ []) :
    pymedian l =
      interpAt (l.insertionSort (· ≤ ·))
        ((((l.insertionSort (· ≤ ·)).length : ℚ) - 1) / 2) := by
  set s := l.insertionSort (· ≤ ·) with hs_def
  have hn : s.length = l.length := List.length_insertionSort _ l
  have hn1 : 1 ≤ s.length := by
    rw [hn]
    exact List.length_pos.mpr hl
  rcases Nat.even_or_odd s.length with he | ho
  · -- even length: the index is n/2 - 1/2, interpolation averages the two middles
    obtain ⟨m, hm⟩ := he
    have hm1 : 1 ≤ m := by omega
    have hcast : (s.length : ℚ) = 2 * m := by rw [hm]; push_cast; ring
    have hidx : (((s.length : ℚ) - 1) / 2) = (m : ℚ) - 1 / 2 := by
      rw [hcast]; ring
    have hfl : ⌊(((s.length : ℚ) - 1) / 2)⌋ = (m : ℤ) - 1 := by
      rw [hidx, Int.floor_eq_iff]
      constructor
      · push_cast; linarith
      · push_cast; linarith
    have hden : ¬(((s.length : ℚ) - 1) / 2).den = 1 := by
      intro h
      have h3 := (den_one_iff _).mp h
      rw [hfl, hidx] at h3
      push_cast at h3
      linarith
    have h0 : (0 : ℚ) ≤ ((s.length : ℚ) - 1) / 2 := by
      have : (1 : ℚ) ≤ (s.length : ℚ) := by exact_mod_cast hn1
      linarith
    rw [interpAt_of_not_int h0 hden, hfl]
    have htn : ((m : ℤ) - 1).toNat = m - 1 := by omega
    rw [htn]
    have hnt2 : m - 1 + 1 = s.length / 2 := by omega
    have hnt1 : m - 1 = s.length / 2 - 1 := by omega
    rw [hnt2, hnt1]
    have hmod : ¬s.length % 2 = 1 := by omega
    simp only [pymedian, ← hs_def, hmod, if_false, ite_false, reduceIte]
    rw [hidx]
    push_cast
    ring
  · -- odd length: the index is the integer n/2
    obtain ⟨m, hm⟩ := ho
    have hcast : (s.length : ℚ) = 2 * m + 1 := by rw [hm]; push_cast; ring
    have hidx : (((s.length : ℚ) - 1) / 2) = (m : ℚ) := by
      rw [hcast]; ring
    have hden : ((((s.length : ℚ) - 1) / 2)).den = 1 := by
      rw [hidx]
      exact Rat.den_natCast m
    have h0 : (0 : ℚ) ≤ ((s.length : ℚ) - 1) / 2 := by
      rw [hidx]
      positivity
    rw [interpAt_of_int h0 hden, hidx]
    have hfl : ⌊(m : ℚ)⌋ = (m : ℤ) := Int.floor_natCast m
    rw [hfl]
    have htn : ((m : ℤ)).toNat = s.length / 2 := by omega
    rw [htn]
    have hmod : s.length % 2 = 1 := by omega
    simp only [pymedian, ← hs_def, hmod, if_true, ite_true, reduceIte]

theorem sorted_stats_chain {l : List ℚ} (hl : l ≠ []) :
    pymin l ≤ pymedian l ∧ pymedian l ≤ percentile l 95 ∧
      percentile l 95 ≤ percentile l 99 ∧ percentile l 99 ≤ pymax l := by
  set s := l.insertionSort (· ≤ ·) with hs_def
  have hs : s.Sorted (· ≤ ·) := List.sorted_insertionSort _ l
  have hlen : s.length = l.length := List.length_insertionSort _ l
  have hne : s ≠ [] := by
    intro h
    apply hl
    have : l.length = 0 := by rw [← hlen, h]; rfl
    exact List.eq_nil_of_length_eq_zero this
  have hn1 : 1 ≤ s.length := List.length_pos.mpr hne
  have hq1 : (1 : ℚ) ≤ (s.length : ℚ) := by exact_mod_cast hn1
  have hq0 : (0 : ℚ) ≤ (s.length : ℚ) - 1 := by linarith
  have hmed0 : (0 : ℚ) ≤ ((s.length : ℚ) - 1) / 2 := by linarith
  have hmed1 : ((s.length : ℚ) - 1) / 2 ≤ (s.length : ℚ) - 1 := by linarith
  have h95idx : (95 : ℚ) / 100 * ((s.length : ℚ) - 1) ≤ (s.length : ℚ) - 1 := by linarith
  have h950 : (0 : ℚ) ≤ (95 : ℚ) / 100 * ((s.length : ℚ) - 1) := by linarith
  have h99idx : (99 : ℚ) / 100 * ((s.length : ℚ) - 1) ≤ (s.length : ℚ) - 1 := by linarith
  refine ⟨?_, ?_, ?_, ?_⟩
  · rw [pymedian_eq_interpAt hl, ← hs_def]
    refine le_trans ?_ (getD_floor_le_interpAt hs hne hmed0 hmed1)
    exact pymin_le ((List.mem_insertionSort _).mp (getD_mem (floor_toNat_lt_length hne hmed1)))
  · rw [pymedian_eq_interpAt hl, percentile_eq_interpAt hl, ← hs_def]
    exact interpAt_mono hs hne hmed0 (by linarith) h95idx
  · rw [percentile_eq_interpAt hl, percentile_eq_interpAt hl, ← hs_def]
    exact interpAt_mono hs hne h950 (by linarith) h99idx
  · rw [percentile_eq_interpAt hl, ← hs_def]
    refine le_trans (interpAt_le_getD_ceil hs hne (by linarith) h99idx) ?_
    have hc : ⌈(99 : ℚ) / 100 * ((s.length : ℚ) - 1)⌉.toNat < s.length := by
      have h1 : ⌈(99 : ℚ) / 100 * ((s.length : ℚ) - 1)⌉ ≤ (s.length : ℤ) - 1 := by
        rw [Int.ceil_le]
        push_cast
        linarith
      omega
    exact le_pymax ((List.mem_insertionSort _).mp (getD_mem hc))

theorem percentile_eq_spec {l : List ℚ} (hl : l ≠ []) {p : ℚ} (h0p : 0 ≤ p) :
    percentile l p = percentileSpec l p := by
  set s := l.insertionSort (· ≤ ·) with hs_def
  have hn1 : 1 ≤ s.length := by
    rw [List.length_insertionSort]
    exact List.length_pos.mpr hl
  have hq : (0 : ℚ) ≤ (s.length : ℚ) - 1 := by
    have : (1 : ℚ) ≤ (s.length : ℚ) := by exact_mod_cast hn1
    linarith
  set idx := p / 100 * ((s.length : ℚ) - 1) with hidx_def
  have h0 : 0 ≤ idx := mul_nonneg (div_nonneg h0p (by norm_num)) hq
  rw [percentile_eq_interpAt hl, ← hs_def, ← hidx_def]
  by_cases h : idx.den = 1
  · rw [interpAt_of_int h0 h]
    have hfe : (⌊idx⌋ : ℚ) = idx := (den_one_iff idx).mp h
    simp only [percentileSpec, ← hs_def, ← hidx_def]
    rw [if_pos hfe]
  · rw [interpAt_of_not_int h0 h]
    have hfe : ¬(⌊idx⌋ : ℚ) = idx := fun he => h ((den_one_iff idx).mpr he)
    simp only [percentileSpec, ← hs_def, ← hidx_def]
    rw [if_neg hfe]
    have hceil : ⌈idx⌉ = ⌊idx⌋ + 1 := ceil_of_den_ne_one h
    have hf0 : 0 ≤ ⌊idx⌋ := Int.floor_nonneg.mpr h0
    have htn : ⌈idx⌉.toNat = ⌊idx⌋.toNat + 1 := by omega
    rw [htn]

/-- Claim C1 (percentile correctness): for every non-empty sample list and every
percentile `p ∈ [0,100]`, the code's `_percentile` agrees with the
specification's interpolated-percentile description (`percentileSpec`), and in
particular `[10,20,30,40]` yields 25 / 10 / 40 at p50 / p0 / p100, and the
single-sample list `[42]` yields 42 at every `p ∈ [0,100]`. -/
theorem percentile_correct :
    (∀ (l : List ℚ) (p : ℚ), l ≠ [] → 0 ≤ p → p ≤ 100 →
        percentile l p = percentileSpec l p) ∧
      percentile [10, 20, 30, 40] 50 = 25 ∧
      percentile [10, 20, 30, 40] 0 = 10 ∧
      percentile [10, 20, 30, 40] 100 = 40 ∧
      (∀ p : ℚ, 0 ≤ p → p ≤ 100 → percentile [42] p = 42) := by
  refine ⟨fun l p hl h0p _ => percentile_eq_spec hl h0p, ?_, ?_, ?_, ?_⟩
  · norm_num [percentile, interpAt, pytrunc, List.insertionSort, List.orderedInsert,
      List.cons_ne_nil]
  · norm_num [percentile, interpAt, pytrunc, List.insertionSort, List.orderedInsert,
      List.cons_ne_nil]
  · norm_num [percentile, interpAt, pytrunc, List.insertionSort, List.orderedInsert,
      List.cons_ne_nil]
    rfl
  · intro p _ _
    norm_num [percentile, interpAt, pytrunc, List.insertionSort, List.orderedInsert]

/-- Witness for claim C1: the general agreement theorem applied at the concrete
input `[10,20,30,40]`, `p = 50`. -/
theorem percentile_correct_witness :
    percentile [10, 20, 30, 40] 50 = percentileSpec [10, 20, 30, 40] 50 :=
  percentile_correct.1 [10, 20, 30, 40] 50 (by simp) (by norm_num) (by norm_num)

/-- Claim C6 (corrected): the code's `_percentile` does *not* signal an error on
an empty collection — `if not data: return 0` yields the sentinel `0` — while
a single-sample collection returns that sample for every percentile. -/
theorem percentile_empty_and_single :
    (∀ p : ℚ, percentile [] p = 0) ∧ (∀ (x p : ℚ), percentile [x] p = x) := by
  constructor
  · intro p
    simp [percentile]
  · intro x p
    norm_num [percentile, interpAt, pytrunc, List.insertionSort, List.orderedInsert]

/-- Counterexample for claim C6 as stated: on the concrete empty input the
percentile function returns the value `0` instead of being an error. -/
theorem percentile_empty_returns_zero : percentile ([] : List ℚ) 50 = 0 := by
  simp [percentile]

/-- Claim C7 (summary statistic ordering): every summary built from a non-empty
set of successful durations satisfies `min ≤ p50 ≤ p95 ≤ p99 ≤ max`; a summary
built from zero successful samples reports all of these statistics as 0. -/
theorem summary_stats_ordered :
    (∀ (l : List ℚ) (ops ns : ℕ) (m : ℚ) (e : List String), l ≠ [] →
        (buildMetricsCLI l ops ns m e).min_latency_ms ≤
            (buildMetricsCLI l ops ns m e).p50_latency_ms ∧
          (buildMetricsCLI l ops ns m e).p50_latency_ms ≤
            (buildMetricsCLI l ops ns m e).p95_latency_ms ∧
          (buildMetricsCLI l ops ns m e).p95_latency_ms ≤
            (buildMetricsCLI l ops ns m e).p99_latency_ms ∧
          (buildMetricsCLI l ops ns m e).p99_latency_ms ≤
            (buildMetricsCLI l ops ns m e).max_latency_ms) ∧
      ∀ (ops ns : ℕ) (m : ℚ) (e : List String),
        (buildMetricsCLI [] ops ns m e).min_latency_ms = 0 ∧
          (buildMetricsCLI [] ops ns m e).p50_latency_ms = 0 ∧
          (buildMetricsCLI [] ops ns m e).p95_latency_ms = 0 ∧
          (buildMetricsCLI [] ops ns m e).p99_latency_ms = 0 ∧
          (buildMetricsCLI [] ops ns m e).max_latency_ms = 0 := by
  constructor
  · intro l ops ns m e hl
    simp only [buildMetricsCLI, if_neg hl]
    exact sorted_stats_chain hl
  · intro ops ns m e
    simp [buildMetricsCLI]

/-- Witness for claim C7: the ordering chain evaluated at the concrete sample
list `[3, 1, 2]`. -/
theorem summary_stats_ordered_witness :
    (buildMetricsCLI [3, 1, 2] 3 10 0 []).min_latency_ms ≤
        (buildMetricsCLI [3, 1, 2] 3 10 0 []).p50_latency_ms ∧
      (buildMetricsCLI [3, 1, 2] 3 10 0 []).p50_latency_ms ≤
        (buildMetricsCLI [3, 1, 2] 3 10 0 []).p95_latency_ms ∧
      (buildMetricsCLI [3, 1, 2] 3 10 0 []).p95_latency_ms ≤
        (buildMetricsCLI [3, 1, 2] 3 10 0 []).p99_latency_ms ∧
      (buildMetricsCLI [3, 1, 2] 3 10 0 []).p99_latency_ms ≤
        (buildMetricsCLI [3, 1, 2] 3 10 0 []).max_latency_ms :=
  summary_stats_ordered.1 [3, 1, 2] 3 10 0 [] (by simp)

/-- Claim C8 (throughput zero-guard): a summary built from zero successful
samples reports throughput 0 without performing the division; otherwise
throughput is the successful-operation count divided by the total elapsed
time of the successful samples in seconds, in both the CLI and the daemon
aggregators. -/
theorem throughput_zero_guard :
    (∀ (ops ns : ℕ) (m : ℚ) (e : List String),
        (buildMetricsCLI [] ops ns m e).throughput_ops_sec = 0 ∧
          (buildMetricsDaemon [] ops ns m e).throughput_ops_sec = 0) ∧
      ∀ (l : List ℚ) (ops ns : ℕ) (m : ℚ) (e : List String), l ≠ [] →
        (buildMetricsCLI l ops ns m e).throughput_ops_sec =
            ((buildMetricsCLI l ops ns m e).operation_count : ℚ) /
              ((buildMetricsCLI l ops ns m e).total_time_ms / 1000) ∧
          (buildMetricsDaemon l ops ns m e).throughput_ops_sec =
            ((buildMetricsDaemon l ops ns m e).operation_count : ℚ) /
              ((buildMetricsDaemon l ops ns m e).total_time_ms / 1000) := by
  constructor
  · intro ops ns m e
    constructor <;> simp [buildMetricsCLI, buildMetricsDaemon]
  · intro l ops ns m e hl
    constructor <;> simp [buildMetricsCLI, buildMetricsDaemon, if_neg hl]

/-- Witness for claim C8: the throughput formula evaluated at the concrete
sample list `[2, 3]`. -/
theorem throughput_zero_guard_witness :
    (buildMetricsCLI [2, 3] 3 10 0 []).throughput_ops_sec =
        ((buildMetricsCLI [2, 3] 3 10 0 []).operation_count : ℚ) /
          ((buildMetricsCLI [2, 3] 3 10 0 []).total_time_ms / 1000) ∧
      (buildMetricsDaemon [2, 3] 3 10 0 []).throughput_ops_sec =
        ((buildMetricsDaemon [2, 3] 3 10 0 []).operation_count : ℚ) /
          ((buildMetricsDaemon [2, 3] 3 10 0 []).total_time_ms / 1000) :=
  throughput_zero_guard.2 [2, 3] 3 10 0 [] (by simp)

/-- Claim C2 (regression boundary): for a lower-is-better metric a regression
record is emitted exactly when the adverse relative change strictly exceeds
the 10% threshold; with baseline 10 ms, a current value of 11.0 ms produces no
record while 11.01 ms does; an improved or unchanged metric never produces a
record. -/
theorem regression_tolerance_boundary :
    (∀ (t u : String) (b c : ℚ), 0 < b →
        ((checkMetricRegression t "avg_latency" b c u).isSome ↔ (c - b) / b > 1 / 10)) ∧
      checkMetricRegression "latency_benchmark" "avg_latency" 10 11 "ms" = none ∧
      (checkMetricRegression "latency_benchmark" "avg_latency" 10 (1101 / 100) "ms").isSome
        = true ∧
      ∀ (t u : String) (b c : ℚ), 0 < b → c ≤ b →
        checkMetricRegression t "avg_latency" b c u = none := by
  refine ⟨?_, ?_, ?_, ?_⟩
  · intro t u b c _
    by_cases hc : (c - b) / b > 1 / 10 <;>
      simp [checkMetricRegression, lowerIsBetterMetric, hc]
  · norm_num [checkMetricRegression, lowerIsBetterMetric]
  · norm_num [checkMetricRegression, lowerIsBetterMetric]
  · intro t u b c hb hcb
    have hle : (c - b) / b ≤ 0 := div_nonpos_of_nonpos_of_nonneg (by linarith) hb.le
    simp [checkMetricRegression, lowerIsBetterMetric]
    exact hle.trans (by norm_num)

/-- Witness for claim C2: the emission criterion applied at baseline 10, current
12 (a 20% adverse change, which regresses). -/
theorem regression_tolerance_boundary_witness :
    (checkMetricRegression "x" "avg_latency" 10 12 "ms").isSome ↔
      ((12 : ℚ) - 10) / 10 > 1 / 10 :=
  regression_tolerance_boundary.1 "x" "ms" 10 12 (by norm_num)

/-- Claim C3 (comparison polarity, latency): for summaries with positive average
latencies, the comparison computes `improvement_factor =
baseline avg / candidate avg`, and its regression signal — a negative
`latency_improvement_percent` — holds exactly when the candidate is slower
than the baseline; concretely, baseline 10 ms vs candidate 2 ms gives factor
5 and no regression, and baseline 2 ms vs candidate 10 ms gives factor 1/5
and a regression. -/
theorem comparison_latency_polarity :
    (∀ cli daemon : PerformanceMetrics,
        0 < cli.avg_latency_ms → 0 < daemon.avg_latency_ms →
        (calcComparison cli daemon).map (fun r => r.improvement_factor) =
            some (cli.avg_latency_ms / daemon.avg_latency_ms) ∧
          (calcComparison cli daemon).map
              (fun r => decide (r.latency_improvement_percent < 0)) =
            some (decide (cli.avg_latency_ms < daemon.avg_latency_ms))) ∧
      (calcComparison (latencySummary 10) (latencySummary 2)).map
          (fun r => r.improvement_factor) = some 5 ∧
      (calcComparison (latencySummary 10) (latencySummary 2)).map
          (fun r => decide (r.latency_improvement_percent < 0)) = some false ∧
      (calcComparison (latencySummary 2) (latencySummary 10)).map
          (fun r => r.improvement_factor) = some (1 / 5) ∧
      (calcComparison (latencySummary 2) (latencySummary 10)).map
          (fun r => decide (r.latency_improvement_percent < 0)) = some true := by
  refine ⟨?_, ?_, ?_, ?_, ?_⟩
  · intro cli daemon hc hd
    constructor
    · simp [calcComparison, pydiv, hc, hd.ne']
    · simp [calcComparison, pydiv, hc, hd.ne', decide_eq_decide]
      constructor
      · intro h
        by_contra hnot
        push_neg at hnot
        have h1 : 0 ≤ (cli.avg_latency_ms - daemon.avg_latency_ms) / cli.avg_latency_ms :=
          div_nonneg (by linarith) hc.le
        nlinarith
      · intro h
        have h1 : (cli.avg_latency_ms - daemon.avg_latency_ms) / cli.avg_latency_ms < 0 :=
          div_neg_of_neg_of_pos (by linarith) hc
        nlinarith
  · norm_num [calcComparison, pydiv, latencySummary]
  · norm_num [calcComparison, pydiv, latencySummary]
  · norm_num [calcComparison, pydiv, latencySummary]
  · norm_num [calcComparison, pydiv, latencySummary]

/-- Witness for claim C3: the general polarity statement applied at the concrete
summaries with averages 10 and 2. -/
theorem comparison_latency_polarity_witness :
    (calcComparison (latencySummary 10) (latencySummary 2)).map
        (fun r => r.improvement_factor) =
      some ((latencySummary 10).avg_latency_ms / (latencySummary 2).avg_latency_ms) ∧
      (calcComparison (latencySummary 10) (latencySummary 2)).map
          (fun r => decide (r.latency_improvement_percent < 0)) =
        some (decide
          ((latencySummary 10).avg_latency_ms < (latencySummary 2).avg_latency_ms)) :=
  comparison_latency_polarity.1 (latencySummary 10) (latencySummary 2)
    (by norm_num [latencySummary]) (by norm_num [latencySummary])

/-- Claim C9 (idempotence): the comparison computation is a pure function of its
two input summaries — in the embedding it is a mathematical function, so two
invocations on the same summaries are identical, which is exactly what the
claim's "no hidden state" amounts to for the shallowly embedded code. -/
theorem comparison_deterministic :
    ∀ cli daemon : PerformanceMetrics,
      calcComparison cli daemon = calcComparison cli daemon :=
  fun _ _ => rfl

/-- Claim C10 (division guard): `calcComparison` fails with a
`ZeroDivisionError` (modelled as `none`) exactly when the baseline average
latency is positive and the candidate average latency is zero — the zero
guard tests only the baseline value; concretely, baseline 10 ms with
candidate 0 ms reaches the unguarded division. -/
theorem comparison_division_guard :
    (∀ cli daemon : PerformanceMetrics,
        calcComparison cli daemon = none ↔
          0 < cli.avg_latency_ms ∧ daemon.avg_latency_ms = 0) ∧
      calcComparison (latencySummary 10) (latencySummary 0) = none := by
  constructor
  · intro cli daemon
    by_cases hc : 0 < cli.avg_latency_ms
    · by_cases hd : daemon.avg_latency_ms = 0
      · simp [calcComparison, pydiv, hc, hd]
      · simp [calcComparison, pydiv, hc, hd]
    · simp [calcComparison, pydiv, hc]
  · norm_num [calcComparison, pydiv, latencySummary]

theorem foldl_append_latencies_length (results : List WorkerResult) (acc : List ℚ) :
    (results.foldl (fun a w => a ++ w.latencies) acc).length =
      acc.length + (results.map (fun w => w.latencies.length)).sum := by
  induction results generalizing acc with
  | nil => simp
  | cons w ws ih =>
    simp only [List.foldl_cons, List.map_cons, List.sum_cons, ih, List.length_append]
    omega

/-- Counterexample for claim C4 as stated: with one worker reporting two
successes and another reporting one success and one failure, the merged
summary's `operation_count` is 3 (successes only), not the claimed 4
(successes plus failures). -/
theorem concurrent_count_not_attempts :
    (mergeConcurrent [okWorker, failWorker] 2 2 100 0).operation_count ≠
      ([okWorker, failWorker].map
        (fun w => w.latencies.length + w.errors.length)).sum := by
  norm_num [mergeConcurrent, okWorker, failWorker, List.cons_ne_nil]

/-- Claim C4 (amended): the merged concurrent summary computes its p50/p95/p99
over the pooled successful-duration list of all workers (never by averaging
per-worker percentiles — at an asymmetric distribution the pooled value
provably differs from the per-worker average), and its `operation_count` is
the sum of the workers' *successful* counts only. -/
theorem concurrent_pooled_merge :
    (∀ (results : List WorkerResult) (nc opc : ℕ) (t m : ℚ),
        results.foldl (fun acc w => acc ++ w.latencies) [] ≠ [] →
        (mergeConcurrent results nc opc t m).p50_latency_ms =
            pymedian (results.foldl (fun acc w => acc ++ w.latencies) []) ∧
          (mergeConcurrent results nc opc t m).p95_latency_ms =
            percentile (results.foldl (fun acc w => acc ++ w.latencies) []) 95 ∧
          (mergeConcurrent results nc opc t m).p99_latency_ms =
            percentile (results.foldl (fun acc w => acc ++ w.latencies) []) 99 ∧
          (mergeConcurrent results nc opc t m).operation_count =
            (results.map (fun w => w.latencies.length)).sum) ∧
      (mergeConcurrent [flatWorker, skewWorker] 2 4 100 0).p95_latency_ms =
          percentile (flatWorker.latencies ++ skewWorker.latencies) 95 ∧
      (mergeConcurrent [flatWorker, skewWorker] 2 4 100 0).p95_latency_ms ≠
        (percentile flatWorker.latencies 95 + percentile skewWorker.latencies 95) / 2 := by
  refine ⟨?_, ?_, ?_⟩
  · intro results nc opc t m h
    refine ⟨by simp only [mergeConcurrent, if_neg h], by simp only [mergeConcurrent, if_neg h],
      by simp only [mergeConcurrent, if_neg h], ?_⟩
    simp only [mergeConcurrent, if_neg h]
    simpa using foldl_append_latencies_length results []
  · norm_num [mergeConcurrent, flatWorker, skewWorker, List.cons_ne_nil]
  · norm_num [mergeConcurrent, flatWorker, skewWorker, percentile, interpAt, pytrunc,
      List.insertionSort, List.orderedInsert, List.cons_ne_nil,
      List.getElem_cons_succ, List.getElem_cons_zero,
      show ((6 : ℤ)).toNat = 6 from rfl, show ((2 : ℤ)).toNat = 2 from rfl]

/-- Witness for claim C4: the pooled-merge statement applied at the concrete
two-worker result list `[okWorker, failWorker]`. -/
theorem concurrent_pooled_merge_witness :
    (mergeConcurrent [okWorker, failWorker] 2 2 100 0).p50_latency_ms =
        pymedian ([okWorker, failWorker].foldl (fun acc w => acc ++ w.latencies) []) ∧
      (mergeConcurrent [okWorker, failWorker] 2 2 100 0).p95_latency_ms =
        percentile ([okWorker, failWorker].foldl (fun acc w => acc ++ w.latencies) []) 95 ∧
      (mergeConcurrent [okWorker, failWorker] 2 2 100 0).p99_latency_ms =
        percentile ([okWorker, failWorker].foldl (fun acc w => acc ++ w.latencies) []) 99 ∧
      (mergeConcurrent [okWorker, failWorker] 2 2 100 0).operation_count =
        ([okWorker, failWorker].map (fun w => w.latencies.length)).sum :=
  concurrent_pooled_merge.1 [okWorker, failWorker] 2 2 100 0
    (by simp [okWorker, failWorker])

/-- Counterexample for claim C5 as stated: a socket-mode response consisting of
a JSON-RPC error object with code −32601 ("method not found") is classified
as a *success* by `send_json_rpc`, contradicting the claim that an error
object is never recorded as a success. -/
theorem rpc_error_counted_success :
    sampleSucceeded (some ⟨false, some (-32601)⟩) = true := by decide

/-- Claim C5 (amended): a response that is not valid JSON is recorded as a
failed sample; a response carrying only a JSON-RPC error object is recorded
as failed exactly when the error code is −32700 (parse error) — any other
error code is counted as a success — and a response with a `result` is always
a success. -/
theorem rpc_success_classification :
    sampleSucceeded none = false ∧
      (∀ c : ℤ, sampleSucceeded (some ⟨false, some c⟩) = decide (c ≠ -32700)) ∧
      sampleSucceeded (some ⟨false, some (-32700)⟩) = false ∧
      sampleSucceeded (some ⟨false, none⟩) = false ∧
      ∀ e : Option ℤ, sampleSucceeded (some ⟨true, e⟩) = true := by
  refine ⟨rfl, fun c => ?_, by decide, rfl, fun e => ?_⟩
  · simp [sampleSucceeded]
  · simp [sampleSucceeded]

end Goxel
